import Mathlib

/-!
Shallow embedding of the ffmpeg chunker/stitcher HTTP service (`index.js`,
`server.js`): framerate probing and parsing, GOP-size planning, the
`POST /get-duration` handler's duration and chunk-count arithmetic, and the
`POST /stitch` / `POST /stitch-base64` handlers' chunk resolution, concat
manifest construction and cleanup.

Modelling conventions:
* JavaScript strings are lists of characters (`Str`).
* JavaScript numbers are rationals extended with NaN and the two signed
  infinities (`JSNum`).  Every finite value arising in this service is an
  exact decimal or a ratio of small integers, so rationals are a faithful
  stand-in for IEEE doubles on the inputs the theorems quantify over; the
  sign of zero is not modelled.
* A probe subprocess outcome (`ProbeResult`) is either a rejected promise
  carrying an error message (non-zero exit of ffprobe) or a resolved one
  carrying the captured stdout.
* The filesystem is an existence predicate `Str → Bool`; remote downloads
  are assumed to succeed (a download failure is caught by the surrounding
  try/catch and is not the subject of any claim).
-/

-- Batteries marks the arithmetic on `Rat` irreducible, which blocks the
-- evaluation of concrete rational computations by `decide`; restoring the
-- default transparency only affects elaboration, not kernel checking.
set_option allowUnsafeReducibility true in
attribute [semireducible] Rat.mul Rat.add Rat.inv Rat.sub

/-- JavaScript strings, embedded as lists of characters. -/
abbrev Str := List Char

/-- A Lean string literal viewed as an embedded JavaScript string. -/
def lit (s : String) : Str := s.data

/-- The whitespace characters relevant to `String.prototype.trim` on probe
output: space, newline, tab and carriage return. -/
def isWs (c : Char) : Bool := c = ' ' || c = '\n' || c = '\t' || c = '\r'

/-- `String.prototype.trim`: strip whitespace from both ends. -/
def trim (cs : Str) : Str :=
  ((cs.dropWhile isWs).reverse.dropWhile isWs).reverse

/-- `String.prototype.split` with a single-character separator: `""` splits
to `[""]`, and each separator occurrence starts a new field. -/
def splitOnChar (sep : Char) : Str → List Str
  | [] => [[]]
  | c :: cs =>
    if c = sep then [] :: splitOnChar sep cs
    else
      match splitOnChar sep cs with
      | [] => [[c]]
      | h :: t => (c :: h) :: t

/-- Numeric value of a decimal digit character. -/
def digitVal (c : Char) : ℕ := c.toNat - 48

/-- Accumulator loop for reading a decimal digit string. -/
def parseDigitsAux (acc : ℕ) : Str → Option ℕ
  | [] => some acc
  | c :: cs => if c.isDigit then parseDigitsAux (10 * acc + digitVal c) cs else none

/-- The value of a nonempty all-digit string, `none` otherwise. -/
def parseDigits : Str → Option ℕ
  | [] => none
  | c :: cs => parseDigitsAux 0 (c :: cs)

/-- A JavaScript number: a finite rational, NaN, or a signed infinity. -/
inductive JSNum where
  | num : ℚ → JSNum
  | nan : JSNum
  | inf : JSNum
  | ninf : JSNum
deriving DecidableEq

/-- JavaScript multiplication at the rational/NaN/infinity level. -/
def jsMul : JSNum → JSNum → JSNum
  | .nan, _ => .nan
  | _, .nan => .nan
  | .num a, .num b => .num (a * b)
  | .inf, .num b => if b = 0 then .nan else if 0 < b then .inf else .ninf
  | .num a, .inf => if a = 0 then .nan else if 0 < a then .inf else .ninf
  | .ninf, .num b => if b = 0 then .nan else if 0 < b then .ninf else .inf
  | .num a, .ninf => if a = 0 then .nan else if 0 < a then .ninf else .inf
  | .inf, .inf => .inf
  | .ninf, .ninf => .inf
  | .inf, .ninf => .ninf
  | .ninf, .inf => .ninf

/-- JavaScript division at the rational/NaN/infinity level (the sign of a
zero numerator or denominator is taken as positive). -/
def jsDiv : JSNum → JSNum → JSNum
  | .nan, _ => .nan
  | _, .nan => .nan
  | .num a, .num b =>
    if b = 0 then (if a = 0 then .nan else if 0 < a then .inf else .ninf)
    else .num (a / b)
  | .num _, .inf => .num 0
  | .num _, .ninf => .num 0
  | .inf, .num b => if 0 ≤ b then .inf else .ninf
  | .ninf, .num b => if 0 ≤ b then .ninf else .inf
  | .inf, .inf => .nan
  | .inf, .ninf => .nan
  | .ninf, .inf => .nan
  | .ninf, .ninf => .nan

/-- JavaScript division whose operands may be `undefined` (a missing array
element from destructuring); `undefined` coerces to NaN. -/
def jsDivU : Option JSNum → Option JSNum → JSNum
  | some a, some b => jsDiv a b
  | _, _ => .nan

/-- `Math.round`: for every finite double this is `⌊x + 1/2⌋`; NaN and the
infinities are returned unchanged. -/
def jsRound : JSNum → JSNum
  | .num q => .num ((⌊q + 1 / 2⌋ : ℤ) : ℚ)
  | x => x

/-- `Math.floor` on a JavaScript number. -/
def jsFloor : JSNum → JSNum
  | .num q => .num ((⌊q⌋ : ℤ) : ℚ)
  | x => x

/-- `Math.ceil` on a JavaScript number. -/
def jsCeil : JSNum → JSNum
  | .num q => .num ((⌈q⌉ : ℤ) : ℚ)
  | x => x

/-- The `Number` conversion applied by `.map(Number)` to each field of the
split probe output, on the fragment of inputs that occur there: a string
that is empty after trimming converts to `0`, a (trimmed) nonempty decimal
digit string to its value, and anything else to NaN. -/
def jsNumber (cs : Str) : JSNum :=
  match trim cs with
  | [] => .num 0
  | t =>
    match parseDigits t with
    | some n => .num (n : ℚ)
    | none => .nan

/-- Fractional value of the digit string that follows a decimal point. -/
def fracVal : Str → ℚ
  | [] => 0
  | c :: cs => (digitVal c + fracVal cs) / 10

/-- `parseFloat`, on the fragment of inputs produced by the duration probe:
leading whitespace is skipped, then a nonempty run of digits with an
optional `.`-separated fractional part is read (trailing characters are
ignored); a string not starting with a digit parses to NaN. -/
def jsParseFloat (cs : Str) : JSNum :=
  let s := cs.dropWhile isWs
  match parseDigits (s.takeWhile Char.isDigit) with
  | none => .nan
  | some n =>
    match s.dropWhile Char.isDigit with
    | '.' :: rest => .num ((n : ℚ) + fracVal (rest.takeWhile Char.isDigit))
    | _ => .num (n : ℚ)

/-- Outcome of awaiting a probe subprocess: the promise rejects with an
error message (non-zero exit), or resolves with the captured stdout. -/
inductive ProbeResult where
  | err : Str → ProbeResult
  | ok : Str → ProbeResult
deriving DecidableEq

/-- `getFramerate` (`index.js` / `server.js`): run ffprobe for the stream's
`r_frame_rate`; on success, split the trimmed stdout on `/`, convert the
first two fields with `Number` (a missing second field is `undefined` and
makes the division NaN), divide, and `Math.round` the quotient.  If the
subprocess itself fails, the catch block returns the 30 fps fallback. -/
def getFramerate (probe : ProbeResult) : JSNum :=
  match probe with
  | .err _ => .num 30
  | .ok stdout =>
    let parts := (splitOnChar '/' (trim stdout)).map jsNumber
    jsRound (jsDivU parts[0]? parts[1]?)

/-- The GOP-size computation of the `POST /chunk` handler:
`Math.floor(chunkSize * fps)` where `fps` is the `getFramerate` result. -/
def gopSize (chunkSize fps : JSNum) : JSNum :=
  jsFloor (jsMul chunkSize fps)

/-- Response of the `POST /get-duration` handler, as far as the claims
observe it: a 400 rejection, a 500 from the outer catch (the duration
probe's promise rejected), or the JSON success payload.  (The cleanup of a
downloaded scratch input, which no claim mentions, is elided.) -/
inductive DurResponse where
  | badRequest (msg : Str)
  | serverError (msg : Str)
  | okResp (duration fps : JSNum) (chunkSize : ℚ) (expectedChunks : JSNum)
deriving DecidableEq

/-- The probe-and-compute phase of `POST /get-duration`: run the duration
probe, `parseFloat` its trimmed stdout, detect the framerate, and respond
with `Math.ceil(duration / chunkSize)` as the expected chunk count.  A
rejected duration probe propagates to the outer catch as a 500. -/
def durationPhase (chunkSize : ℚ) (durProbe frProbe : ProbeResult) : DurResponse :=
  match durProbe with
  | .err msg => .serverError msg
  | .ok stdout =>
    let duration := jsParseFloat (trim stdout)
    let fps := getFramerate frProbe
    .okResp duration fps chunkSize (jsCeil (jsDiv duration (.num chunkSize)))

/-- `String.prototype.startsWith`. -/
def strStartsWith (s pre : Str) : Bool := pre.isPrefixOf s

/-- The `POST /get-duration` handler: reject a missing or empty `video`
field with 400; download a URL input (downloads are assumed to succeed) or
require a local path to exist (400 otherwise); then probe and respond. -/
def getDurationHandler (video : Option Str) (chunkSize : ℚ) (ex : Str → Bool)
    (durProbe frProbe : ProbeResult) : DurResponse :=
  match video with
  | none => .badRequest (lit "video parameter required (URL or path)")
  | some v =>
    if v = [] then .badRequest (lit "video parameter required (URL or path)")
    else if strStartsWith v (lit "http") then durationPhase chunkSize durProbe frProbe
    else if ex v then durationPhase chunkSize durProbe frProbe
    else .badRequest (lit "File not found")

/-- Decimal digits of a natural number, used for the timestamp and index
parts of generated scratch-file names. -/
def natDigits (n : ℕ) : Str := Nat.toDigits 10 n

/-- Path of the scratch file the stitch loop downloads chunk number `i`
to: `uploads/temp_chunk_<timestamp>_<i>.mp4`. -/
def tempChunkPath (ts i : ℕ) : Str :=
  lit "uploads/temp_chunk_" ++ natDigits ts ++ '_' :: natDigits i ++ lit ".mp4"

/-- Path of the concat manifest file: `uploads/filelist_<timestamp>.txt`. -/
def listFilePath (ts : ℕ) : Str :=
  lit "uploads/filelist_" ++ natDigits ts ++ lit ".txt"

/-- Path of the stitched output: `output/stitched_<timestamp>.mp4`. -/
def outputFilePath (ts : ℕ) : Str :=
  lit "output/stitched_" ++ natDigits ts ++ lit ".mp4"

/-- The manifest line written for one resolved chunk path:
`file '../<path>'` (the concat tool runs relative to the manifest's
directory, hence the `../`). -/
def manifestLine (c : Str) : Str := lit "file '../" ++ c ++ lit "'"

/-- `Array.prototype.join` with a newline separator. -/
def joinLines : List Str → Str
  | [] => []
  | [x] => x
  | x :: y :: xs => x ++ '\n' :: joinLines (y :: xs)

/-- The concat manifest contents built from the resolved chunk list, in
list order. -/
def fileListContents (resolved : List Str) : Str :=
  joinLines (resolved.map manifestLine)

/-- Outcome of the chunk-resolution loop: the resolved local paths in
input order together with the scratch files downloaded so far, or the
first missing local reference (the loop returns 400 there, keeping the
scratch files already downloaded). -/
inductive ResolveOut where
  | ok (resolved downloaded : List Str)
  | notFound (missing : Str) (downloaded : List Str)
deriving DecidableEq

/-- The chunk-resolution loop shared by `POST /stitch` and
`POST /stitch-base64`: a chunk starting with `http` is downloaded to
`tempChunkPath` (downloads assumed to succeed), an existing local path is
used as is, and a missing local path aborts the loop. -/
def resolveChunks (ts : ℕ) (ex : Str → Bool) : ℕ → List Str → ResolveOut
  | _, [] => .ok [] []
  | i, c :: rest =>
    if strStartsWith c (lit "http") then
      match resolveChunks ts ex (i + 1) rest with
      | .ok r d => .ok (tempChunkPath ts i :: r) (tempChunkPath ts i :: d)
      | .notFound m d => .notFound m (tempChunkPath ts i :: d)
    else if ex c then
      match resolveChunks ts ex (i + 1) rest with
      | .ok r d => .ok (c :: r) d
      | .notFound m d => .notFound m d
    else .notFound c []

/-- Response of the stitch endpoints as far as the claims observe it. -/
inductive StitchResp where
  | badRequest (msg : Str)
  | toolError (msg : Str)
  | okFile (output : Str) (timestamp : ℕ)
  | okB64
deriving DecidableEq

/-- Observable outcome of one stitch request: the HTTP response, the
scratch files the request downloaded, the manifest file's contents (if the
request got as far as writing it), the files unlinked during cleanup (in
unlink order), and whether the concat tool produced the output file. -/
structure StitchResult where
  resp : StitchResp
  downloaded : List Str
  manifestContents : Option Str
  deleted : List Str
  outputCreated : Bool
deriving DecidableEq

/-- The body shared verbatim by the `POST /stitch` and
`POST /stitch-base64` handlers after their (differing) validation:
resolve the chunks (400 naming the first missing local reference,
without cleanup), write the manifest, run the concat tool, then always
unlink the manifest and every resolved path that starts with
`uploads/temp_chunk_`; on tool failure respond 500, otherwise respond
with the output path (`/stitch`) or read, base64-encode and unlink the
output (`/stitch-base64`, `b64 = true`). -/
def stitchCore (b64 : Bool) (chunks : List Str) (ex : Str → Bool)
    (ffmpegOk : Bool) (ts : ℕ) : StitchResult :=
  match resolveChunks ts ex 0 chunks with
  | .notFound m d =>
    { resp := .badRequest (lit "Chunk not found: " ++ m),
      downloaded := d, manifestContents := none, deleted := [],
      outputCreated := false }
  | .ok resolved d =>
    let cleanup := listFilePath ts ::
      resolved.filter (fun c => strStartsWith c (lit "uploads/temp_chunk_"))
    if ffmpegOk then
      if b64 then
        { resp := .okB64, downloaded := d,
          manifestContents := some (fileListContents resolved),
          deleted := cleanup ++ [outputFilePath ts], outputCreated := true }
      else
        { resp := .okFile (outputFilePath ts) ts, downloaded := d,
          manifestContents := some (fileListContents resolved),
          deleted := cleanup, outputCreated := true }
    else
      { resp := .toolError (lit "Stitching failed"), downloaded := d,
        manifestContents := some (fileListContents resolved),
        deleted := cleanup, outputCreated := false }

/-- The JSON value found at `req.body.chunks`: absent, null, an array of
strings, or some other value with the given truthiness. -/
inductive JSField where
  | undef
  | jnull
  | other (truthy : Bool)
  | arr (xs : List Str)
deriving DecidableEq

/-- The empty `StitchResult` of a request rejected by validation. -/
def rejectedStitch : StitchResult :=
  { resp := .badRequest (lit "chunks array required"), downloaded := [],
    manifestContents := none, deleted := [], outputCreated := false }

/-- The `POST /stitch` handler: `!chunks || !Array.isArray(chunks) ||
chunks.length === 0` is rejected with 400, everything else runs the shared
body. -/
def stitchHandler (field : JSField) (ex : Str → Bool) (ffmpegOk : Bool)
    (ts : ℕ) : StitchResult :=
  match field with
  | .arr (c :: cs) => stitchCore false (c :: cs) ex ffmpegOk ts
  | _ => rejectedStitch

/-- The `POST /stitch-base64` handler: its validation is only
`!chunks || !Array.isArray(chunks)` — an empty array is not rejected. -/
def stitchB64Handler (field : JSField) (ex : Str → Bool) (ffmpegOk : Bool)
    (ts : ℕ) : StitchResult :=
  match field with
  | .arr xs => stitchCore true xs ex ffmpegOk ts
  | _ => rejectedStitch

theorem parseDigitsAux_digits (cs : Str) : ∀ acc n, parseDigitsAux acc cs = some n →
    ∀ c ∈ cs, c.isDigit = true := by
  induction cs with
  | nil => intro _ _ _ c hc; cases hc
  | cons x xs ih =>
    intro acc n hp c hc
    rw [parseDigitsAux] at hp
    by_cases hx : x.isDigit = true
    · rw [if_pos hx] at hp
      rcases List.mem_cons.mp hc with rfl | hmem
      · exact hx
      · exact ih _ n hp c hmem
    · rw [if_neg hx] at hp; cases hp

theorem parseDigits_digits (cs : Str) (n : ℕ) (h : parseDigits cs = some n) :
    ∀ c ∈ cs, c.isDigit = true := by
  cases cs with
  | nil => cases h
  | cons x xs => exact parseDigitsAux_digits (x :: xs) 0 n h

theorem parseDigits_ne_nil (cs : Str) (n : ℕ) (h : parseDigits cs = some n) :
    cs ≠ [] := by
  intro heq; subst heq; cases h

theorem isDigit_not_ws (c : Char) (h : c.isDigit = true) : isWs c = false := by
  simp only [isWs, Bool.or_eq_false_iff, decide_eq_false_iff_not]
  refine ⟨⟨⟨?_, ?_⟩, ?_⟩, ?_⟩ <;> rintro rfl <;> exact absurd h (by decide)

theorem isDigit_ne_slash (c : Char) (h : c.isDigit = true) : c ≠ '/' := by
  rintro rfl; exact absurd h (by decide)

theorem dropWhile_eq_self_of (p : Char → Bool) (cs : Str)
    (h : ∀ c ∈ cs, p c = false) : cs.dropWhile p = cs := by
  cases cs with
  | nil => rfl
  | cons x xs => simp [List.dropWhile_cons, h x (List.mem_cons_self x xs)]

theorem trim_eq_self (cs : Str) (h : ∀ c ∈ cs, isWs c = false) : trim cs = cs := by
  unfold trim
  rw [dropWhile_eq_self_of _ _ h]
  rw [dropWhile_eq_self_of _ _ (fun c hc => h c (List.mem_reverse.mp hc))]
  exact List.reverse_reverse cs

theorem splitOnChar_noSep (sep : Char) (cs : Str) (h : ∀ c ∈ cs, c ≠ sep) :
    splitOnChar sep cs = [cs] := by
  induction cs with
  | nil => rfl
  | cons x xs ih =>
    rw [splitOnChar, if_neg (h x (List.mem_cons_self x xs))]
    rw [ih (fun c hc => h c (List.mem_cons_of_mem _ hc))]

theorem splitOnChar_append (sep : Char) (a b : Str) (h : ∀ c ∈ a, c ≠ sep) :
    splitOnChar sep (a ++ sep :: b) = a :: splitOnChar sep b := by
  induction a with
  | nil => rw [List.nil_append, splitOnChar, if_pos rfl]
  | cons x xs ih =>
    rw [List.cons_append, splitOnChar, if_neg (h x (List.mem_cons_self x xs))]
    rw [ih (fun c hc => h c (List.mem_cons_of_mem _ hc))]

theorem jsNumber_digits (cs : Str) (n : ℕ) (h : parseDigits cs = some n) :
    jsNumber cs = .num (n : ℚ) := by
  have hd := parseDigits_digits cs n h
  have htrim : trim cs = cs :=
    trim_eq_self cs (fun c hc => isDigit_not_ws c (hd c hc))
  cases cs with
  | nil => cases h
  | cons x xs =>
    unfold jsNumber
    rw [htrim]
    show (match parseDigits (x :: xs) with
      | some n => JSNum.num (n : ℚ)
      | none => JSNum.nan) = JSNum.num (n : ℚ)
    rw [h]

theorem isPrefixOf_self_append (p r : Str) : p.isPrefixOf (p ++ r) = true := by
  induction p with
  | nil => simp [List.isPrefixOf]
  | cons c cs ih => simp [List.isPrefixOf, ih]

theorem tempChunkPath_hasTempMark (ts i : ℕ) :
    strStartsWith (tempChunkPath ts i) (lit "uploads/temp_chunk_") = true :=
  isPrefixOf_self_append (lit "uploads/temp_chunk_") _

theorem bool_eq_false_of_ne_true {b : Bool} (h : ¬b = true) : b = false := by
  cases b
  · rfl
  · exact absurd rfl h

theorem resolveChunks_allLocal (ts : ℕ) (ex : Str → Bool) (chunks : List Str)
    (h : ∀ c ∈ chunks, strStartsWith c (lit "http") = false ∧ ex c = true) :
    ∀ i, resolveChunks ts ex i chunks = .ok chunks [] := by
  induction chunks with
  | nil => intro i; rfl
  | cons x xs ih =>
    intro i
    have hx := h x (List.mem_cons_self x xs)
    rw [resolveChunks, hx.1]
    simp only [Bool.false_eq_true, if_false, hx.2, if_true]
    rw [ih (fun c hc => h c (List.mem_cons_of_mem _ hc)) (i + 1)]

theorem resolveChunks_firstMissing (ts : ℕ) (ex : Str → Bool) (chunks : List Str)
    (hloc : ∀ c ∈ chunks, strStartsWith c (lit "http") = false)
    (hmiss : ∃ c ∈ chunks, ex c = false) :
    ∃ m, m ∈ chunks ∧ ex m = false ∧
      ∀ i, resolveChunks ts ex i chunks = .notFound m [] := by
  induction chunks with
  | nil => rcases hmiss with ⟨c, hc, _⟩; cases hc
  | cons x xs ih =>
    by_cases hx : ex x = true
    · have hmiss2 : ∃ c ∈ xs, ex c = false := by
        rcases hmiss with ⟨c, hc, hcf⟩
        rcases List.mem_cons.mp hc with rfl | hmem
        · rw [hx] at hcf; cases hcf
        · exact ⟨c, hmem, hcf⟩
      rcases ih (fun c hc => hloc c (List.mem_cons_of_mem _ hc)) hmiss2 with
        ⟨m, hm, hmf, heq⟩
      refine ⟨m, List.mem_cons_of_mem _ hm, hmf, fun i => ?_⟩
      rw [resolveChunks, hloc x (List.mem_cons_self x xs)]
      simp only [Bool.false_eq_true, if_false, hx, if_true]
      rw [heq (i + 1)]
    · have hx2 : ex x = false := bool_eq_false_of_ne_true hx
      refine ⟨x, List.mem_cons_self x xs, hx2, fun i => ?_⟩
      rw [resolveChunks, hloc x (List.mem_cons_self x xs)]
      simp only [Bool.false_eq_true, if_false, hx2]

theorem resolveChunks_resolvable (ts : ℕ) (ex : Str → Bool) (chunks : List Str)
    (h : ∀ c ∈ chunks, strStartsWith c (lit "http") = true ∨ ex c = true) :
    ∀ i, ∃ resolved dl, resolveChunks ts ex i chunks = .ok resolved dl ∧
      (∀ f ∈ dl, strStartsWith f (lit "uploads/temp_chunk_") = true ∧
        f ∈ resolved) ∧
      (∀ c ∈ chunks, strStartsWith c (lit "http") = false → c ∈ resolved) := by
  induction chunks with
  | nil =>
    intro i
    refine ⟨[], [], rfl, ?_, ?_⟩
    · intro f hf; cases hf
    · intro c hc; cases hc
  | cons x xs ih =>
    intro i
    rcases ih (fun c hc => h c (List.mem_cons_of_mem _ hc)) (i + 1) with
      ⟨r, dl, heq, hdl, hres⟩
    by_cases hx : strStartsWith x (lit "http") = true
    · refine ⟨tempChunkPath ts i :: r, tempChunkPath ts i :: dl, ?_, ?_, ?_⟩
      · rw [resolveChunks, hx]; simp only [if_true]; rw [heq]
      · intro f hf
        rcases List.mem_cons.mp hf with rfl | hmem
        · exact ⟨tempChunkPath_hasTempMark ts i, List.mem_cons_self _ _⟩
        · rcases hdl f hmem with ⟨h1, h2⟩
          exact ⟨h1, List.mem_cons_of_mem _ h2⟩
      · intro c hc hcl
        rcases List.mem_cons.mp hc with rfl | hmem
        · rw [hx] at hcl; cases hcl
        · exact List.mem_cons_of_mem _ (hres c hmem hcl)
    · have hex : ex x = true := (h x (List.mem_cons_self x xs)).resolve_left hx
      have hx2 : strStartsWith x (lit "http") = false := bool_eq_false_of_ne_true hx
      refine ⟨x :: r, dl, ?_, ?_, ?_⟩
      · rw [resolveChunks, hx2]
        simp only [Bool.false_eq_true, if_false, hex, if_true]
        rw [heq]
      · intro f hf
        rcases hdl f hf with ⟨h1, h2⟩
        exact ⟨h1, List.mem_cons_of_mem _ h2⟩
      · intro c hc _
        rcases List.mem_cons.mp hc with rfl | hmem
        · exact List.mem_cons_self _ _
        · rename_i hcl
          exact List.mem_cons_of_mem _ (hres c hmem hcl)

theorem stitchCore_cleanup (b64 : Bool) (chunks : List Str) (ex : Str → Bool)
    (ff : Bool) (ts : ℕ)
    (h : ∀ c ∈ chunks, strStartsWith c (lit "http") = true ∨ ex c = true) :
    listFilePath ts ∈ (stitchCore b64 chunks ex ff ts).deleted ∧
    (∀ f ∈ (stitchCore b64 chunks ex ff ts).downloaded,
      f ∈ (stitchCore b64 chunks ex ff ts).deleted) ∧
    (∀ c, strStartsWith c (lit "uploads/temp_chunk_") = false →
      c ≠ listFilePath ts → c ≠ outputFilePath ts →
      c ∉ (stitchCore b64 chunks ex ff ts).deleted) := by
  rcases resolveChunks_resolvable ts ex chunks h 0 with ⟨r, dl, heq, hdl, _⟩
  unfold stitchCore
  rw [heq]
  cases ff with
  | false =>
    refine ⟨List.mem_cons_self _ _, ?_, ?_⟩
    · intro f hf
      rcases hdl f hf with ⟨h1, h2⟩
      exact List.mem_cons_of_mem _ (List.mem_filter.mpr ⟨h2, h1⟩)
    · intro c hpre hne1 _ hmem
      rcases List.mem_cons.mp hmem with h3 | h3
      · exact hne1 h3
      · rw [(List.mem_filter.mp h3).2] at hpre; cases hpre
  | true =>
    cases b64 with
    | false =>
      refine ⟨List.mem_cons_self _ _, ?_, ?_⟩
      · intro f hf
        rcases hdl f hf with ⟨h1, h2⟩
        exact List.mem_cons_of_mem _ (List.mem_filter.mpr ⟨h2, h1⟩)
      · intro c hpre hne1 _ hmem
        rcases List.mem_cons.mp hmem with h3 | h3
        · exact hne1 h3
        · rw [(List.mem_filter.mp h3).2] at hpre; cases hpre
    | true =>
      refine ⟨List.mem_append_left _ (List.mem_cons_self _ _), ?_, ?_⟩
      · intro f hf
        rcases hdl f hf with ⟨h1, h2⟩
        exact List.mem_append_left _
          (List.mem_cons_of_mem _ (List.mem_filter.mpr ⟨h2, h1⟩))
      · intro c hpre hne1 hne2 hmem
        rcases List.mem_append.mp hmem with h3 | h3
        · rcases List.mem_cons.mp h3 with h4 | h4
          · exact hne1 h4
          · rw [(List.mem_filter.mp h4).2] at hpre; cases hpre
        · exact hne2 (List.mem_singleton.mp h3)

/-- Claim C1: for every pair of positive integers `segmentSeconds`
(`chunkSize`) and `detectedFps`, the planner computes
`gopSizeFrames = Math.floor(segmentSeconds * detectedFps)`, which equals
their product and is a positive integer. -/
theorem C1_gop_size (s f : ℕ) (hs : 0 < s) (hf : 0 < f) :
    gopSize (.num (s : ℚ)) (.num (f : ℚ)) = jsFloor (.num ((s : ℚ) * (f : ℚ))) ∧
    gopSize (.num (s : ℚ)) (.num (f : ℚ)) = .num (((s * f : ℕ) : ℚ)) ∧
    0 < s * f := by
  refine ⟨rfl, ?_, Nat.mul_pos hs hf⟩
  show jsFloor (jsMul (.num (s : ℚ)) (.num (f : ℚ))) = _
  simp only [jsMul, jsFloor]
  congr 1
  rw [← Nat.cast_mul, Int.floor_natCast]
  norm_cast

theorem C1_witness :
    gopSize (.num ((5 : ℕ) : ℚ)) (.num ((30 : ℕ) : ℚ)) =
      .num (((5 * 30 : ℕ) : ℚ)) ∧ 0 < 5 * 30 :=
  (C1_gop_size 5 30 (by decide) (by decide)).2

/-- Claim C2: frame-rate detection parses the probe output as a rational
`numerator/denominator` string and returns `Math.round` of the quotient,
which for a positive quotient is `⌊numerator/denominator + 1/2⌋`; in
particular `30/1` detects as 30 fps, `30000/1001` as 30 fps and
`24000/1001` as 24 fps. -/
theorem C2_framerate_parsing (a b : Str) (n d : ℕ)
    (ha : parseDigits a = some n) (hb : parseDigits b = some d) (hd : 0 < d) :
    getFramerate (.ok (a ++ '/' :: b)) =
      .num ((⌊(n : ℚ) / (d : ℚ) + 1 / 2⌋ : ℤ) : ℚ) ∧
    getFramerate (.ok (lit "30/1")) = .num 30 ∧
    getFramerate (.ok (lit "30000/1001")) = .num 30 ∧
    getFramerate (.ok (lit "24000/1001")) = .num 24 := by
  refine ⟨?_, by decide, by decide, by decide⟩
  have hda := parseDigits_digits a n ha
  have hdb := parseDigits_digits b d hb
  have hnw : ∀ c ∈ (a ++ '/' :: b), isWs c = false := by
    intro c hc
    rcases List.mem_append.mp hc with h1 | h2
    · exact isDigit_not_ws c (hda c h1)
    · rcases List.mem_cons.mp h2 with rfl | h3
      · decide
      · exact isDigit_not_ws c (hdb c h3)
  simp only [getFramerate]
  rw [trim_eq_self _ hnw]
  rw [splitOnChar_append '/' a b (fun c hc => isDigit_ne_slash c (hda c hc))]
  rw [splitOnChar_noSep '/' b (fun c hc => isDigit_ne_slash c (hdb c hc))]
  simp only [List.map_cons, List.map_nil]
  rw [jsNumber_digits a n ha, jsNumber_digits b d hb]
  show jsRound (jsDiv (.num (n : ℚ)) (.num (d : ℚ))) = _
  rw [jsDiv]
  rw [if_neg (by exact_mod_cast hd.ne')]
  rfl

theorem C2_witness :
    getFramerate (.ok (lit "30000" ++ '/' :: lit "1001")) =
      .num ((⌊((30000 : ℕ) : ℚ) / ((1001 : ℕ) : ℚ) + 1 / 2⌋ : ℤ) : ℚ) :=
  (C2_framerate_parsing (lit "30000") (lit "1001") 30000 1001 (by decide)
    (by decide) (by decide)).1

/-- Claim C3, evaluated on the code: a rejected framerate probe does fall
back to 30 fps, but a probe that succeeds with empty or malformed stdout
does not — `Number` / the division produce NaN, `Math.round(NaN)` is NaN,
and `getFramerate` returns NaN, so the handler proceeds with a non-numeric
fps (contradicting the claim's fallback-on-malformed-output). -/
theorem C3_probe_fallback_eval :
    getFramerate (.err (lit "ffprobe exited with code 1")) = .num 30 ∧
    getFramerate (.ok []) = .nan ∧
    getFramerate (.ok (lit "N/A")) = .nan ∧
    gopSize (.num 5) (getFramerate (.ok [])) = .nan := by
  exact ⟨by decide, by decide, by decide, by decide⟩

/-- Claim C4, evaluated on the code: a rejected duration probe is indeed
request-fatal (500), but a probe that succeeds with non-numeric stdout
(`N/A`) is not — `parseFloat` yields NaN and the handler returns the
success response with a NaN duration and NaN expected chunk count,
contradicting the claim that the endpoint never returns success without a
valid numeric duration. -/
theorem C4_duration_eval :
    durationPhase 5 (.err (lit "probe failed")) (.ok (lit "30/1")) =
      .serverError (lit "probe failed") ∧
    getDurationHandler (some (lit "video.mp4")) 5 (fun _ => true)
      (.ok (lit "N/A")) (.ok (lit "30/1")) = .okResp .nan (.num 30) 5 .nan := by
  exact ⟨by decide, by decide⟩

/-- Claim C5: for a request whose duration probe output parses to the
rational `q` and whose chunk size is a positive rational `c`, the
`POST /get-duration` response carries `expectedChunks = ⌈q / c⌉`
(duration 17.3 with chunk size 5 gives 4, see the witness). -/
theorem C5_expected_chunks (v durOut : Str) (frProbe : ProbeResult)
    (ex : Str → Bool) (c q : ℚ) (hc : 0 < c)
    (hv : v ≠ []) (hvl : strStartsWith v (lit "http") = false)
    (hex : ex v = true) (hq : jsParseFloat (trim durOut) = .num q) :
    getDurationHandler (some v) c ex (.ok durOut) frProbe =
      .okResp (.num q) (getFramerate frProbe) c (.num ((⌈q / c⌉ : ℤ) : ℚ)) := by
  simp only [getDurationHandler]
  rw [if_neg hv, hvl]
  simp only [Bool.false_eq_true, if_false, hex, if_true]
  simp only [durationPhase]
  rw [hq]
  show DurResponse.okResp _ _ _ (jsCeil (jsDiv (.num q) (.num c))) = _
  rw [jsDiv, if_neg hc.ne']
  rfl

theorem C5_witness :
    getDurationHandler (some (lit "video.mp4")) 5 (fun _ => true)
      (.ok (lit "17.3")) (.ok (lit "30/1")) =
      .okResp (.num (173 / 10)) (getFramerate (.ok (lit "30/1"))) 5
        (.num ((⌈(173 / 10 : ℚ) / 5⌉ : ℤ) : ℚ)) :=
  C5_expected_chunks (lit "video.mp4") (lit "17.3") (.ok (lit "30/1"))
    (fun _ => true) 5 (173 / 10) (by norm_num) (by decide) (by decide)
    (by decide) (by decide)

/-- Claim C6: for every caller-supplied array of existing local chunk
files, the concat manifest written by `POST /stitch` consists of exactly
the caller's paths, one `file '../<path>'` line per chunk, in exactly the
caller-supplied array order.  The filesystem enters the handler only
through the existence predicate `ex` (quantified arbitrarily here), so
modification times and the names themselves cannot influence the order. -/
theorem C6_manifest_order (chunks : List Str) (ex : Str → Bool) (ff : Bool)
    (ts : ℕ) (hne : chunks ≠ [])
    (h : ∀ c ∈ chunks, strStartsWith c (lit "http") = false ∧ ex c = true) :
    (stitchHandler (.arr chunks) ex ff ts).manifestContents =
      some (joinLines (chunks.map manifestLine)) := by
  cases chunks with
  | nil => exact absurd rfl hne
  | cons x xs =>
    show (stitchCore false (x :: xs) ex ff ts).manifestContents = _
    unfold stitchCore
    rw [resolveChunks_allLocal ts ex (x :: xs) h 0]
    cases ff <;> rfl

theorem C6_witness :
    (stitchHandler
        (.arr [lit "chunks/a.mp4", lit "chunks/b.mp4", lit "chunks/c.mp4"])
        (fun _ => true) true 7).manifestContents =
      some (joinLines
        ([lit "chunks/a.mp4", lit "chunks/b.mp4", lit "chunks/c.mp4"].map
          manifestLine)) :=
  C6_manifest_order [lit "chunks/a.mp4", lit "chunks/b.mp4", lit "chunks/c.mp4"]
    (fun _ => true) true 7 (by decide) (by decide)

/-- Claim C7: if every chunk reference is local and at least one does not
exist, `POST /stitch` responds 400 with an error naming a missing path,
downloads nothing, writes no manifest, and creates no output file. -/
theorem C7_missing_chunk (chunks : List Str) (ex : Str → Bool) (ff : Bool)
    (ts : ℕ) (hne : chunks ≠ [])
    (hloc : ∀ c ∈ chunks, strStartsWith c (lit "http") = false)
    (hmiss : ∃ c ∈ chunks, ex c = false) :
    ∃ m, m ∈ chunks ∧ ex m = false ∧
      stitchHandler (.arr chunks) ex ff ts =
        { resp := .badRequest (lit "Chunk not found: " ++ m),
          downloaded := [], manifestContents := none, deleted := [],
          outputCreated := false } := by
  rcases resolveChunks_firstMissing ts ex chunks hloc hmiss with ⟨m, hm, hmf, heq⟩
  refine ⟨m, hm, hmf, ?_⟩
  cases chunks with
  | nil => exact absurd rfl hne
  | cons x xs =>
    show stitchCore false (x :: xs) ex ff ts = _
    unfold stitchCore
    rw [heq 0]

theorem C7_witness :
    ∃ m, m ∈ [lit "uploads/does-not-exist.mp4"] ∧ (fun _ => false) m = false ∧
      stitchHandler (.arr [lit "uploads/does-not-exist.mp4"])
          (fun _ => false) false 0 =
        { resp := .badRequest (lit "Chunk not found: " ++ m),
          downloaded := [], manifestContents := none, deleted := [],
          outputCreated := false } :=
  C7_missing_chunk [lit "uploads/does-not-exist.mp4"] (fun _ => false) false 0
    (by decide) (by decide) ⟨lit "uploads/does-not-exist.mp4", by decide, rfl⟩

/-- Claim C8 counterexample: an empty `chunks` array is rejected with 400
by `POST /stitch` but passes `POST /stitch-base64`'s validation — that
handler proceeds to the concat tool and reports the tool's failure as a
500 instead. -/
theorem C8_counterexample :
    (stitchB64Handler (.arr []) (fun _ => false) false 0).resp =
      .toolError (lit "Stitching failed") ∧
    (stitchHandler (.arr []) (fun _ => false) false 0).resp =
      .badRequest (lit "chunks array required") := by
  exact ⟨by decide, by decide⟩

/-- Claim C8 as amended: `POST /stitch-base64` applies the same 400
rejection as `POST /stitch` to a missing or non-array `chunks` field, but
unlike `/stitch` it does not reject an empty array — an empty array passes
its validation and the request proceeds to the concat tool. -/
theorem C8_validation (field : JSField) (ex : Str → Bool) (ff : Bool) (ts : ℕ)
    (h : ∀ xs : List Str, field ≠ .arr xs) :
    (stitchHandler field ex ff ts).resp =
      .badRequest (lit "chunks array required") ∧
    (stitchB64Handler field ex ff ts).resp =
      .badRequest (lit "chunks array required") ∧
    (stitchHandler (.arr []) ex ff ts).resp =
      .badRequest (lit "chunks array required") ∧
    (stitchB64Handler (.arr []) ex ff ts).resp =
      (if ff then .okB64 else .toolError (lit "Stitching failed")) := by
  refine ⟨?_, ?_, rfl, ?_⟩
  · cases field with
    | arr xs => exact absurd rfl (h xs)
    | undef => rfl
    | jnull => rfl
    | other t => rfl
  · cases field with
    | arr xs => exact absurd rfl (h xs)
    | undef => rfl
    | jnull => rfl
    | other t => rfl
  · cases ff <;> rfl

theorem C8_witness :
    (stitchHandler .undef (fun _ => false) false 0).resp =
      .badRequest (lit "chunks array required") ∧
    (stitchB64Handler .undef (fun _ => false) false 0).resp =
      .badRequest (lit "chunks array required") ∧
    (stitchHandler (.arr []) (fun _ => false) false 0).resp =
      .badRequest (lit "chunks array required") ∧
    (stitchB64Handler (.arr []) (fun _ => false) false 0).resp =
      (if false then .okB64 else .toolError (lit "Stitching failed")) :=
  C8_validation .undef (fun _ => false) false 0 (fun _ h => JSField.noConfusion h)

/-- Claim C9 counterexample: a caller-supplied local chunk whose path
happens to begin with `uploads/temp_chunk_` is never downloaded by the
request, yet is deleted by the cleanup, refuting the claim that
caller-supplied local chunk files are not deleted. -/
theorem C9_counterexample :
    strStartsWith (lit "uploads/temp_chunk_keep.mp4") (lit "http") = false ∧
    (stitchHandler (.arr [lit "uploads/temp_chunk_keep.mp4"]) (fun _ => true)
        true 7).downloaded = [] ∧
    lit "uploads/temp_chunk_keep.mp4" ∈
      (stitchHandler (.arr [lit "uploads/temp_chunk_keep.mp4"]) (fun _ => true)
          true 7).deleted := by
  exact ⟨by decide, by decide, by decide⟩

/-- Claim C9 as amended: after the concat tool invocation in `POST /stitch`
and `POST /stitch-base64`, the manifest file and every scratch chunk file
downloaded by the request are deleted, regardless of whether the tool
succeeded or failed; and a file is never deleted unless its path begins
with `uploads/temp_chunk_` or is the request's manifest or output path —
in particular a caller-supplied local chunk without that prefix survives. -/
theorem C9_cleanup (chunks : List Str) (ex : Str → Bool) (ff : Bool) (ts : ℕ)
    (hne : chunks ≠ [])
    (h : ∀ c ∈ chunks, strStartsWith c (lit "http") = true ∨ ex c = true) :
    (listFilePath ts ∈ (stitchHandler (.arr chunks) ex ff ts).deleted ∧
      (∀ f ∈ (stitchHandler (.arr chunks) ex ff ts).downloaded,
        f ∈ (stitchHandler (.arr chunks) ex ff ts).deleted) ∧
      (∀ c, strStartsWith c (lit "uploads/temp_chunk_") = false →
        c ≠ listFilePath ts → c ≠ outputFilePath ts →
        c ∉ (stitchHandler (.arr chunks) ex ff ts).deleted)) ∧
    (listFilePath ts ∈ (stitchB64Handler (.arr chunks) ex ff ts).deleted ∧
      (∀ f ∈ (stitchB64Handler (.arr chunks) ex ff ts).downloaded,
        f ∈ (stitchB64Handler (.arr chunks) ex ff ts).deleted) ∧
      (∀ c, strStartsWith c (lit "uploads/temp_chunk_") = false →
        c ≠ listFilePath ts → c ≠ outputFilePath ts →
        c ∉ (stitchB64Handler (.arr chunks) ex ff ts).deleted)) := by
  cases chunks with
  | nil => exact absurd rfl hne
  | cons x xs =>
    exact ⟨stitchCore_cleanup false (x :: xs) ex ff ts h,
      stitchCore_cleanup true (x :: xs) ex ff ts h⟩

theorem C9_witness :
    listFilePath 3 ∈
      (stitchHandler (.arr [lit "chunks/a.mp4"]) (fun _ => true) false 3).deleted ∧
    listFilePath 3 ∈
      (stitchB64Handler (.arr [lit "chunks/a.mp4"]) (fun _ => true) false 3).deleted :=
  ⟨(C9_cleanup [lit "chunks/a.mp4"] (fun _ => true) false 3 (by decide)
      (by decide)).1.1,
   (C9_cleanup [lit "chunks/a.mp4"] (fun _ => true) false 3 (by decide)
      (by decide)).2.1⟩

/-- Claim C10: in `POST /stitch` and `POST /stitch-base64` the cleanup
decides what to delete by the filename test `startsWith
"uploads/temp_chunk_"`, not by whether this request downloaded the file:
a caller-supplied local chunk whose path carries that marker is deleted
after the tool invocation even though the request (all chunks local here)
downloaded nothing. -/
theorem C10_prefix_deletion (chunks : List Str) (ex : Str → Bool) (ff : Bool)
    (ts : ℕ) (c : Str) (hc : c ∈ chunks)
    (h : ∀ x ∈ chunks, strStartsWith x (lit "http") = false ∧ ex x = true)
    (hmark : strStartsWith c (lit "uploads/temp_chunk_") = true) :
    (stitchHandler (.arr chunks) ex ff ts).downloaded = [] ∧
    c ∈ (stitchHandler (.arr chunks) ex ff ts).deleted ∧
    (stitchB64Handler (.arr chunks) ex ff ts).downloaded = [] ∧
    c ∈ (stitchB64Handler (.arr chunks) ex ff ts).deleted := by
  cases chunks with
  | nil => cases hc
  | cons x xs =>
    have heq := resolveChunks_allLocal ts ex (x :: xs) h 0
    have hcore : ∀ b64, (stitchCore b64 (x :: xs) ex ff ts).downloaded = [] ∧
        c ∈ (stitchCore b64 (x :: xs) ex ff ts).deleted := by
      intro b64
      unfold stitchCore
      rw [heq]
      have hfil : c ∈ (x :: xs).filter
          (fun p => strStartsWith p (lit "uploads/temp_chunk_")) :=
        List.mem_filter.mpr ⟨hc, hmark⟩
      cases ff with
      | false => exact ⟨rfl, List.mem_cons_of_mem _ hfil⟩
      | true =>
        cases b64 with
        | false => exact ⟨rfl, List.mem_cons_of_mem _ hfil⟩
        | true =>
          exact ⟨rfl, List.mem_append_left _ (List.mem_cons_of_mem _ hfil)⟩
    exact ⟨(hcore false).1, (hcore false).2, (hcore true).1, (hcore true).2⟩

theorem C10_witness :
    (stitchHandler (.arr [lit "uploads/temp_chunk_mine.mp4"]) (fun _ => true)
        true 4).downloaded = [] ∧
    lit "uploads/temp_chunk_mine.mp4" ∈
      (stitchHandler (.arr [lit "uploads/temp_chunk_mine.mp4"]) (fun _ => true)
          true 4).deleted ∧
    (stitchB64Handler (.arr [lit "uploads/temp_chunk_mine.mp4"]) (fun _ => true)
        true 4).downloaded = [] ∧
    lit "uploads/temp_chunk_mine.mp4" ∈
      (stitchB64Handler (.arr [lit "uploads/temp_chunk_mine.mp4"])
          (fun _ => true) true 4).deleted :=
  C10_prefix_deletion [lit "uploads/temp_chunk_mine.mp4"] (fun _ => true) true 4
    (lit "uploads/temp_chunk_mine.mp4") (by decide) (by decide) (by decide)

